import Mathlib

/-!
Verification of `deepforest/evaluate.py`: per-image and per-dataset matching of
predicted bounding boxes against ground-truth bounding boxes, and the derived
accuracy metrics (box precision/recall, per-class precision/recall/support and
the overall label-aware precision/recall).

The shallow embedding below translates the three functions of the source file
(`evaluate_image`, `compute_class_recall`, `evaluate`) into Lean definitions.
Pandas dataframes become lists of records; floats become rationals; code that
can raise becomes `Except String`.  The external collaborators
(`IoU.compute_IoU` and `check_file`, which live outside the evaluation module)
are modelled from the spec: the matcher is a parameter constrained by contract
predicates, and the format checker always succeeds in this typed embedding.
-/

namespace DeepForestEval

/-- A ground-truth table row: columns `image_path, xmin, ymin, xmax, ymax, label`. -/
structure GroundRow where
  image_path : String
  xmin : ℚ
  ymin : ℚ
  xmax : ℚ
  ymax : ℚ
  label : String
deriving DecidableEq, Repr

/-- A predictions table row: the ground-truth columns plus a confidence `score`. -/
structure PredRow where
  image_path : String
  xmin : ℚ
  ymin : ℚ
  xmax : ℚ
  ymax : ℚ
  label : String
  score : ℚ
deriving DecidableEq, Repr

/-- One row of the pairing table produced by the rectangle-set matcher:
columns `truth_id, prediction_id, IoU`; `prediction_id` is null and `IoU` is 0
for an unmatched truth rectangle. -/
structure MatchRow where
  truth_id : Nat
  prediction_id : Option Nat
  iou : ℚ
deriving DecidableEq, Repr

/-- A row of the table returned by `evaluate_image`: the matcher's pairing row
with the class labels attached (`predicted_label` is null when `prediction_id`
is null). -/
structure ImageResultRow extends MatchRow where
  predicted_label : Option String
  true_label : String
deriving DecidableEq, Repr

/-- A row of the dataset-level matched-rows table built by `evaluate`: the
per-image result row stamped with the image path and the `match` column.
`match` is a keyword in Lean, so the column is named `matched` here; `none`
models the null `match` of rows synthesized for images with no predictions.
(The synthesized frame also carries a `score` column that is always null and is
never read; it is omitted here.) -/
structure EvalRow extends ImageResultRow where
  image_path : String
  matched : Option Bool
deriving DecidableEq, Repr

/-- One row of the per-class metrics frame built by `compute_class_recall`
(columns `label, recall, precision, size`). -/
structure ClassMetrics where
  label : String
  «recall» : ℚ
  precision : ℚ
  size : Nat
deriving DecidableEq, Repr

/-- The dictionary returned by `evaluate`.  `box_precision` and `box_recall`
are `Option ℚ` because `np.mean` of an empty list is the float NaN, which has
no rational counterpart: `none` models NaN, `some q` models the float value
`q`. -/
structure EvalOutput where
  results : List EvalRow
  box_precision : Option ℚ
  box_recall : Option ℚ
  class_recall : Option (List ClassMetrics)
  overall_precision : ℚ
  overall_recall : ℚ
deriving DecidableEq, Repr

instance {ε α : Type} [DecidableEq ε] [DecidableEq α] : DecidableEq (Except ε α) := fun a b =>
  match a, b with
  | Except.ok a, Except.ok b =>
    if h : a = b then .isTrue (by rw [h]) else .isFalse (by simp [h])
  | Except.error a, Except.error b =>
    if h : a = b then .isTrue (by rw [h]) else .isFalse (by simp [h])
  | Except.ok _, Except.error _ => .isFalse (by simp)
  | Except.error _, Except.ok _ => .isFalse (by simp)

/-- Modelled from the spec: the Rectangle-Set Matcher (`IoU.compute_IoU`, in
`deepforest/IoU.py`, which is not part of the evaluation module) is an external
collaborator consumed as a black box.  It takes the ground-truth rows and the
prediction rows of one image and returns a pairing table.  We model it as a
function parameter; the contract the spec states for it is captured by the
predicates below. -/
abbrev Matcher : Type := List GroundRow → List PredRow → List MatchRow

/-- Modelled from the spec: the matcher outputs "one row per truth rectangle". -/
def MatcherOneRowPerTruth (m : Matcher) : Prop :=
  ∀ g p, (m g p).length = g.length

/-- Modelled from the spec: `check_file` (`deepforest/utilities.py`, not part
of the evaluation module) validates that a table has the required columns and
that the label types of the two tables are consistent.  In this typed
embedding every row carries all required columns and labels are strings, so
the check always succeeds. -/
def check_file {α : Type} (_df : List α) : Except String Unit := Except.ok ()

/-- `pandas.Series.unique`: the distinct values in order of first occurrence.
(`seen` accumulates the values already emitted.) -/
def uniqueAux {α : Type} [DecidableEq α] (seen : List α) : List α → List α
  | [] => []
  | a :: l => if a ∈ seen then uniqueAux seen l else a :: uniqueAux (a :: seen) l

/-- Distinct values of a column, in order of first occurrence. -/
def unique {α : Type} [DecidableEq α] (l : List α) : List α := uniqueAux [] l

/-- The keys of a pandas `groupby`: the distinct values of the column, sorted
ascending (pandas sorts group keys by default). -/
def sortedKeys (l : List String) : List String := l.dedup.insertionSort (· ≤ ·)

/-- `np.mean` over a list of floats: the arithmetic mean, or NaN (modelled as
`none`) for an empty list. -/
def listMean (l : List ℚ) : Option ℚ :=
  if l.isEmpty then none else some (l.sum / (l.length : ℚ))

/-- A `for` loop over `l` that builds one output element per input element and
may raise: the first raise aborts the whole loop. -/
def exceptMapList {α β : Type} (f : α → Except String β) : List α → Except String (List β)
  | [] => Except.ok []
  | a :: l => do
    let b ← f a
    let bs ← exceptMapList f l
    pure (b :: bs)

/-- The `ValueError` message of `evaluate_image` (source line 32): the format
string interpolates `plot_names[0]`, the first distinct path. -/
def inputErrorMsg (p : String) : String :=
  "More than one plot passed to image crown: " ++ p

/-- The `IndexError` numpy raises for `plot_names[0]` when `unique()` returned
an empty array (zero prediction rows). -/
def indexErrorMsg : String := "index 0 is out of bounds for axis 0 with size 0"

/-- The `KeyError` pandas `.loc` raises for a missing index label. -/
def keyErrorMsg : String := "KeyError"

/-- The `ValueError` of `pd.concat` on an empty list of frames. -/
def concatErrorMsg : String := "No objects to concatenate"

/-- The `ZeroDivisionError` of an uncaught integer division by zero. -/
def zeroDivErrorMsg : String := "ZeroDivisionError: division by zero"

/-- `predictions["image_path"].unique()` (source line 30): the distinct image
paths of the predictions table, in order of first occurrence. -/
def plotNames (predictions : List PredRow) : List String :=
  unique (predictions.map (fun p => p.image_path))

/-- Attaching the class labels to one pairing row (source lines 48-50):
`predicted_label` is `predictions.label.loc[prediction_id]` when
`prediction_id` is not null (null propagates), `true_label` is
`ground_df.label.loc[truth_id]`.  Both tables have been reindexed to
0,1,2,..., so `.loc` is positional lookup and raises `KeyError` when the id is
out of range. -/
def attachLabels (predictions : List PredRow) (ground_df : List GroundRow)
    (r : MatchRow) : Except String ImageResultRow := do
  let predicted_label : Option String ←
    match r.prediction_id with
    | none => pure none
    | some i =>
      match predictions[i]? with
      | some p => pure (some p.label)
      | none => Except.error keyErrorMsg
  let true_label : String ←
    match ground_df[r.truth_id]? with
    | some g => pure g.label
    | none => Except.error keyErrorMsg
  pure { truth_id := r.truth_id, prediction_id := r.prediction_id, iou := r.iou,
         predicted_label := predicted_label, true_label := true_label }

/-- `evaluate_image` (source lines 18-58), without the optional visualization
side effect (`savedir=None`; rendering the overlay is out of scope).  It
checks that all prediction rows share one image path, delegates to the
rectangle-set matcher and attaches the class labels.  The geometry columns
built on lines 36-42 are consumed only by the matcher, so they stay inside the
`matcher` parameter here. -/
def evaluate_image (matcher : Matcher) (predictions : List PredRow)
    (ground_df : List GroundRow) : Except String (List ImageResultRow) :=
  let plot_names := plotNames predictions
  if 1 < plot_names.length then
    Except.error (inputErrorMsg plot_names.headI)
  else
    match plot_names with
    | [] => Except.error indexErrorMsg
    | _ :: _ => exceptMapList (attachLabels predictions ground_df) (matcher ground_df predictions)

/-- `compute_class_recall` (source lines 61-88).  It keeps the rows with
`match == 1`, returns null when none remain (the source also prints
"No predictions made"; the print is a side effect with no bearing on the
result), and otherwise groups the matched subset by `true_label` (pandas
`groupby` iterates the distinct keys in sorted order). -/
def compute_class_recall (results : List EvalRow) (predictions : List PredRow) :
    Option (List ClassMetrics) :=
  let df_IoUthres := results.filter (fun r => decide (r.matched = some true))
  if df_IoUthres.isEmpty then none
  else some ((sortedKeys (df_IoUthres.map (fun r => r.true_label))).map (fun name =>
    let group := df_IoUthres.filter (fun r => decide (r.true_label = name))
    let correct := (group.filter (fun r => decide (r.predicted_label = some r.true_label))).length
    let number_of_predictions := (predictions.filter (fun p => decide (p.label = name))).length
    { label := name,
      «recall» := (correct : ℚ) / ((results.filter (fun r => decide (r.true_label = name))).length : ℚ),
      precision := if number_of_predictions = 0 then 0
                   else (correct : ℚ) / (number_of_predictions : ℚ),
      size := group.length }))

/-- One ground-truth image group of `ground_df.groupby("image_path")`: the rows
whose `image_path` equals `k`, each paired with its original row index (pandas
keeps the original index labels inside a group). -/
def groupFor (ground_df : List GroundRow) (k : String) : List (Nat × GroundRow) :=
  ground_df.enum.filter (fun ig => decide (ig.2.image_path = k))

/-- The body of `evaluate`'s per-image loop (source lines 113-148) for the
group with key `k`.  Returns the rows this image contributes to the
matched-rows table, the values appended to `box_recalls` and the values
appended to `box_precisions`.  An image with no predictions synthesizes one
row per truth row (`prediction_id`/`IoU`/`predicted_label`/`match` as on lines
120-128, `truth_id = group.index.values`), appends recall 0 and no precision;
otherwise the group is reindexed, `evaluate_image` runs, `match` and
`image_path` are stamped onto every row, and this image's recall
(`true_positive / result.shape[0]`) and precision
(`true_positive / image_predictions.shape[0]`) are appended. -/
def evalGroup (matcher : Matcher) (iou_threshold : ℚ) (predictions : List PredRow)
    (ground_df : List GroundRow) (k : String) :
    Except String (List EvalRow × List ℚ × List ℚ) :=
  let image_predictions := predictions.filter (fun p => decide (p.image_path = k))
  let group := groupFor ground_df k
  if image_predictions.isEmpty then
    Except.ok
      (group.map (fun ig =>
        { truth_id := ig.1, prediction_id := none, iou := 0,
          predicted_label := none, true_label := ig.2.label,
          image_path := k, matched := none }),
       [0], [])
  else do
    let result ← evaluate_image matcher image_predictions (group.map Prod.snd)
    let stamped : List EvalRow := result.map (fun r =>
      { toImageResultRow := r, image_path := k,
        matched := some (decide (iou_threshold < r.iou)) })
    let true_positive := (stamped.filter (fun r => decide (r.matched = some true))).length
    if stamped.length = 0 then Except.error zeroDivErrorMsg
    else
      Except.ok (stamped,
        [(true_positive : ℚ) / (stamped.length : ℚ)],
        [(true_positive : ℚ) / (image_predictions.length : ℚ)])

/-- `sum(results["match"])` inside the micro-average `try` blocks (source lines
151-158).  The concatenated `match` column holds `True`/`False` for rows that
went through `evaluate_image` and `None` for rows synthesized for images with
no predictions; Python's `sum` adds the values left to right, so any `None`
raises `TypeError` (modelled as `none`), and otherwise the sum counts the
`True` entries. -/
def sumMatch (results : List EvalRow) : Option Nat :=
  if results.any (fun r => decide (r.matched = none)) then none
  else some ((results.filter (fun r => decide (r.matched = some true))).length)

/-- Micro box precision (source lines 151-154): `sum(results["match"]) /
predictions.shape[0]`, where the bare `except:` turns any error — the
`TypeError` from summing a null `match` as well as the `ZeroDivisionError` of
an empty predictions table — into 0. -/
def microPrecision (predictions : List PredRow) (results : List EvalRow) : ℚ :=
  match sumMatch results with
  | none => 0
  | some s => if predictions.length = 0 then 0 else (s : ℚ) / (predictions.length : ℚ)

/-- Micro box recall (source lines 155-158): `sum(results["match"]) /
results.shape[0]` under the same bare `except:`. -/
def microRecall (results : List EvalRow) : ℚ :=
  match sumMatch results with
  | none => 0
  | some s => if results.length = 0 then 0 else (s : ℚ) / (results.length : ℚ)

/-- `sum(df_iou["correct"])` (source lines 164-166): the number of rows with
`IoU > 0.4` whose predicted label equals the true label. -/
def truePositive04 (results : List EvalRow) : ℤ :=
  (((results.filter (fun r => decide ((2/5 : ℚ) < r.iou))).filter
      (fun r => decide (r.predicted_label = some r.true_label))).length : ℤ)

/-- `overall_precision` (source lines 167, 169-172): `TP / (TP + FP)` with
`FP = predictions.shape[0] - TP`; the `except` recovers a division by zero
as 0. -/
def overallPrecision (predictions : List PredRow) (results : List EvalRow) : ℚ :=
  let tp := truePositive04 results
  let fp : ℤ := (predictions.length : ℤ) - tp
  if tp + fp = 0 then 0 else (tp : ℚ) / ((tp : ℚ) + (fp : ℚ))

/-- `overall_recall` (source lines 168, 173-176): `TP / (TP + FN)` with
`FN = results.shape[0] - TP`; the `except` recovers a division by zero as 0. -/
def overallRecall (results : List EvalRow) : ℚ :=
  let tp := truePositive04 results
  let fn : ℤ := (results.length : ℤ) - tp
  if tp + fn = 0 then 0 else (tp : ℚ) / ((tp : ℚ) + (fn : ℚ))

/-- The tail of `evaluate` after the per-image loop (source lines 150-186):
concatenate the per-image frames and the per-image recall/precision lists,
compute the dataset box metrics (micro by default, overridden by the macro
means when `average` is true), the per-class metrics and the overall
label-aware metrics, and build the returned dictionary. -/
def aggregate (predictions : List PredRow) (average : Bool)
    (per : List (List EvalRow × List ℚ × List ℚ)) : EvalOutput :=
  let results := (per.map (fun t => t.1)).flatten
  let box_recalls := (per.map (fun t => t.2.1)).flatten
  let box_precisions := (per.map (fun t => t.2.2)).flatten
  { results := results,
    box_precision :=
      if average then listMean box_precisions else some (microPrecision predictions results),
    box_recall :=
      if average then listMean box_recalls else some (microRecall results),
    class_recall := compute_class_recall results predictions,
    overall_precision := overallPrecision predictions results,
    overall_recall := overallRecall results }

/-- `evaluate` (source lines 91-186), without the visualization arguments
(`root_dir` is only forwarded to the overlay writer and `savedir=None` here).
The two input tables are validated, the ground truth is grouped by image path,
each group is evaluated (`evalGroup`), and the per-image outputs are
aggregated.  `pd.concat` on line 150 raises `ValueError` when the loop ran
zero times (empty ground truth). -/
def evaluate (matcher : Matcher) (predictions : List PredRow) (ground_df : List GroundRow)
    (iou_threshold : ℚ) (average : Bool) : Except String EvalOutput := do
  check_file ground_df
  check_file predictions
  let per ← exceptMapList (evalGroup matcher iou_threshold predictions ground_df)
    (sortedKeys (ground_df.map (fun g => g.image_path)))
  if per.isEmpty then Except.error concatErrorMsg
  else Except.ok (aggregate predictions average per)

/-! ### Concrete instances used to evaluate the model on closed inputs -/

/-- Do a ground box and a prediction box have identical coordinates? -/
def sameBox (g : GroundRow) (p : PredRow) : Bool :=
  decide (g.xmin = p.xmin ∧ g.ymin = p.ymin ∧ g.xmax = p.xmax ∧ g.ymax = p.ymax)

/-- A concrete rectangle-set matcher satisfying the spec's contract, used to
run the model on closed inputs: truth row `i` pairs with prediction row `i`
(IoU 1) when the two rectangles coincide, and is unmatched (no prediction id,
IoU 0) otherwise.  One output row per truth row, injective by construction. -/
def exactMatcher : Matcher := fun ground preds =>
  ground.enum.map (fun ig =>
    match preds[ig.1]? with
    | some p =>
      if sameBox ig.2 p then { truth_id := ig.1, prediction_id := some ig.1, iou := 1 }
      else { truth_id := ig.1, prediction_id := none, iou := 0 }
    | none => { truth_id := ig.1, prediction_id := none, iou := 0 })

/-- A ground-truth box in image `a`. -/
def gA : GroundRow :=
  { image_path := "a", xmin := 0, ymin := 0, xmax := 10, ymax := 10, label := "T" }

/-- A ground-truth box in image `b`. -/
def gB : GroundRow :=
  { image_path := "b", xmin := 0, ymin := 0, xmax := 5, ymax := 5, label := "T" }

/-- A prediction in image `a` exactly matching `gA`. -/
def pA : PredRow :=
  { image_path := "a", xmin := 0, ymin := 0, xmax := 10, ymax := 10, label := "T", score := 9/10 }

/-- A prediction in image `zz`. -/
def pZ : PredRow :=
  { image_path := "zz", xmin := 0, ymin := 0, xmax := 1, ymax := 1, label := "T", score := 1/2 }

/-- A prediction in image `qq`. -/
def pQ : PredRow :=
  { image_path := "qq", xmin := 0, ymin := 0, xmax := 1, ymax := 1, label := "T", score := 1/2 }

/-- `exactMatcher` satisfies the spec's one-row-per-truth-rectangle contract. -/
theorem exactMatcher_one_row : MatcherOneRowPerTruth exactMatcher := by
  intro g p
  simp [exactMatcher, MatcherOneRowPerTruth]

/-! ### Helper lemmas -/

/-- A successful `exceptMapList` relates inputs and outputs pointwise. -/
theorem exceptMapList_ok_forall₂ {α β : Type} (f : α → Except String β) :
    ∀ (l : List α) (ys : List β), exceptMapList f l = Except.ok ys →
      List.Forall₂ (fun a b => f a = Except.ok b) l ys := by
  intro l
  induction l with
  | nil =>
    intro ys h
    simp only [exceptMapList] at h
    cases h
    exact List.Forall₂.nil
  | cons a l ih =>
    intro ys h
    simp only [exceptMapList] at h
    cases hfa : f a with
    | error e => rw [hfa] at h; simp [Bind.bind, Except.bind] at h
    | ok b =>
      rw [hfa] at h
      cases hrest : exceptMapList f l with
      | error e => rw [hrest] at h; simp [Bind.bind, Except.bind] at h
      | ok bs =>
        rw [hrest] at h
        simp only [Bind.bind, Except.bind, pure, Except.pure, Except.ok.injEq] at h
        cases h
        exact List.Forall₂.cons hfa (ih bs hrest)

/-- A successful `exceptMapList` produces one output per input. -/
theorem exceptMapList_ok_length {α β : Type} (f : α → Except String β)
    (l : List α) (ys : List β) (h : exceptMapList f l = Except.ok ys) :
    ys.length = l.length :=
  (exceptMapList_ok_forall₂ f l ys h).length_eq.symm

/-- Every member of the output of a `Forall₂` relation has a related input. -/
theorem forall₂_mem_right {α β : Type} {R : α → β → Prop} :
    ∀ {l : List α} {ys : List β}, List.Forall₂ R l ys → ∀ {b}, b ∈ ys → ∃ a ∈ l, R a b := by
  intro l ys h
  induction h with
  | nil => intro b hb; cases hb
  | cons hab _ ih =>
    intro b hb
    rcases List.mem_cons.mp hb with hb | hb
    · exact ⟨_, List.mem_cons_self _ _, hb ▸ hab⟩
    · rcases ih hb with ⟨a, ha, hr⟩
      exact ⟨a, List.mem_cons_of_mem _ ha, hr⟩

/-- `uniqueAux` drops everything when all values were already seen. -/
theorem uniqueAux_all_seen {α : Type} [DecidableEq α] (seen : List α) (l : List α)
    (h : ∀ x ∈ l, x ∈ seen) : uniqueAux seen l = [] := by
  induction l with
  | nil => rfl
  | cons a l ih =>
    have ha : a ∈ seen := h a (List.mem_cons_self a l)
    simp only [uniqueAux, if_pos ha]
    exact ih (fun x hx => h x (List.mem_cons_of_mem a hx))

/-- The distinct values of a nonempty constant list: just the constant. -/
theorem unique_constant {α : Type} [DecidableEq α] (k : α) (l : List α)
    (hne : l ≠ []) (hall : ∀ x ∈ l, x = k) : unique l = [k] := by
  cases l with
  | nil => exact absurd rfl hne
  | cons a l =>
    have hak : a = k := hall a (List.mem_cons_self a l)
    subst hak
    simp only [unique, uniqueAux, List.not_mem_nil, if_false]
    rw [uniqueAux_all_seen]
    intro x hx
    rw [hall x (List.mem_cons_of_mem a hx)]
    exact List.mem_singleton.mpr rfl

/-- Does the first character list begin with the second? -/
def startsWithChars : List Char → List Char → Bool
  | _, [] => true
  | [], _ :: _ => false
  | a :: l, b :: m => a == b && startsWithChars l m

/-- Does the first character list contain the second as a contiguous run? -/
def containsRun : List Char → List Char → Bool
  | [], small => small.isEmpty
  | a :: l, small => startsWithChars (a :: l) small || containsRun l small

/-- A list begins with any of its initial segments. -/
theorem startsWithChars_append (m r : List Char) : startsWithChars (m ++ r) m = true := by
  induction m with
  | nil => cases r <;> rfl
  | cons b m ih => simp [startsWithChars, ih]

/-- Extending the big list to the right preserves `startsWithChars`. -/
theorem startsWithChars_append_right :
    ∀ (small big r : List Char), startsWithChars big small = true →
      startsWithChars (big ++ r) small = true := by
  intro small
  induction small with
  | nil => intro big r _; cases big <;> cases r <;> simp [startsWithChars]
  | cons b m ih =>
    intro big r h
    cases big with
    | nil => simp [startsWithChars] at h
    | cons a l =>
      simp only [startsWithChars, Bool.and_eq_true] at h
      simp only [List.cons_append, startsWithChars, Bool.and_eq_true]
      exact ⟨h.1, ih l r h.2⟩

/-- A list that begins with a pattern contains it as a run. -/
theorem containsRun_of_startsWithChars (big small : List Char)
    (h : startsWithChars big small = true) : containsRun big small = true := by
  cases big with
  | nil => cases small with
    | nil => rfl
    | cons b m => simp [startsWithChars] at h
  | cons a l => simp [containsRun, h]

/-- String concatenation concatenates the character data. -/
theorem string_data_append (s t : String) : (s ++ t).data = s.data ++ t.data := rfl

/-- The single-image error message always mentions the fixed prefix. -/
theorem inputErrorMsg_mentions_marker (p : String) :
    containsRun (inputErrorMsg p).data (String.data "More than one plot") = true := by
  apply containsRun_of_startsWithChars
  rw [inputErrorMsg, string_data_append]
  apply startsWithChars_append_right
  decide

/-- Any list contains its own final segment as a run. -/
theorem containsRun_append_self : ∀ (l m : List Char), containsRun (l ++ m) m = true := by
  intro l
  induction l with
  | nil =>
    intro m
    cases m with
    | nil => rfl
    | cons b m' =>
      simp only [List.nil_append, containsRun]
      have : startsWithChars (b :: m') (b :: m') = true := by
        have := startsWithChars_append (b :: m') []
        simpa using this
      simp [this]
  | cons a l ih =>
    intro m
    rw [List.cons_append]
    simp [containsRun, ih m]

/-- The single-image error message always mentions the interpolated path. -/
theorem inputErrorMsg_mentions_path (p : String) :
    containsRun (inputErrorMsg p).data p.data = true := by
  rw [inputErrorMsg, string_data_append]
  have h := containsRun_append_self (String.data "More than one plot passed to image crown: ") p.data
  exact h

/-- On a nonempty predictions table whose rows all share the image path `k`,
`evaluate_image` reaches the matcher and the label-attachment loop. -/
theorem evaluate_image_eq (matcher : Matcher) (preds : List PredRow)
    (ground : List GroundRow) (k : String) (hne : preds ≠ [])
    (hall : ∀ p ∈ preds, p.image_path = k) :
    evaluate_image matcher preds ground =
      exceptMapList (attachLabels preds ground) (matcher ground preds) := by
  have hu : plotNames preds = [k] := by
    rw [plotNames]
    apply unique_constant
    · simpa using hne
    · intro x hx
      rcases List.mem_map.mp hx with ⟨p, hp, rfl⟩
      exact hall p hp
  simp [evaluate_image, hu]

/-- Filtering an enumeration by a predicate on the values keeps as many
elements as filtering the plain list. -/
theorem enumFrom_filter_length {α : Type} (q : α → Bool) :
    ∀ (n : Nat) (l : List α),
      ((l.enumFrom n).filter (fun ig => q ig.2)).length = (l.filter q).length := by
  intro n l
  induction l generalizing n with
  | nil => rfl
  | cons a l ih =>
    simp only [List.enumFrom, List.filter_cons]
    by_cases h : q a
    · simp [h, ih]
    · simp [h, ih]

/-- The size of an image group equals the number of ground rows with that path. -/
theorem groupFor_length (ground : List GroundRow) (k : String) :
    (groupFor ground k).length =
      (ground.filter (fun g => decide (g.image_path = k))).length := by
  unfold groupFor List.enum
  exact enumFrom_filter_length (fun g => decide (g.image_path = k)) 0 ground

/-- The synthesized rows of an image group with no predictions (source lines
119-132): one row per truth row, null prediction id, IoU 0, null predicted
label, null match. -/
def synthRows (ground : List GroundRow) (k : String) : List EvalRow :=
  (groupFor ground k).map (fun ig =>
    { truth_id := ig.1, prediction_id := none, iou := 0,
      predicted_label := none, true_label := ig.2.label,
      image_path := k, matched := none })

/-- For a group with no predictions, `evalGroup` synthesizes the rows, appends
recall 0 and appends no precision.  (The shared content behind claim C5.) -/
theorem evalGroup_no_predictions (matcher : Matcher) (thr : ℚ) (preds : List PredRow)
    (ground : List GroundRow) (k : String)
    (hempty : (preds.filter (fun p => decide (p.image_path = k))).isEmpty = true) :
    evalGroup matcher thr preds ground k = Except.ok (synthRows ground k, [0], []) := by
  simp only [evalGroup, hempty, if_true, synthRows]

/-- A successful `evalGroup` yields exactly one recall entry. -/
theorem evalGroup_ok_recall_singleton (matcher : Matcher) (thr : ℚ) (preds : List PredRow)
    (ground : List GroundRow) (k : String) (t : List EvalRow × List ℚ × List ℚ)
    (h : evalGroup matcher thr preds ground k = Except.ok t) : ∃ q, t.2.1 = [q] := by
  by_cases hemp : (preds.filter (fun p => decide (p.image_path = k))).isEmpty
  · rw [evalGroup_no_predictions matcher thr preds ground k hemp] at h
    cases h
    exact ⟨0, rfl⟩
  · simp only [evalGroup, hemp, if_false] at h
    cases hei : evaluate_image matcher (preds.filter (fun p => decide (p.image_path = k)))
        ((groupFor ground k).map Prod.snd) with
    | error e => rw [hei] at h; simp [Bind.bind, Except.bind] at h
    | ok result =>
      rw [hei] at h
      simp only [Bind.bind, Except.bind] at h
      by_cases hlen : (result.map (fun r =>
          ({ toImageResultRow := r, image_path := k,
             matched := some (decide (thr < r.iou)) } : EvalRow))).length = 0
      · rw [if_pos hlen] at h; cases h
      · rw [if_neg hlen] at h
        cases h
        exact ⟨_, rfl⟩

/-- Every row a successful `evalGroup` emits either is a synthesized row (null
match, IoU 0) or carries `match = (IoU > iou_threshold)`. -/
theorem evalGroup_ok_rows (matcher : Matcher) (thr : ℚ) (preds : List PredRow)
    (ground : List GroundRow) (k : String) (t : List EvalRow × List ℚ × List ℚ)
    (h : evalGroup matcher thr preds ground k = Except.ok t) :
    ∀ r ∈ t.1, (r.matched = none ∧ r.iou = 0) ∨ r.matched = some (decide (thr < r.iou)) := by
  by_cases hemp : (preds.filter (fun p => decide (p.image_path = k))).isEmpty
  · rw [evalGroup_no_predictions matcher thr preds ground k hemp] at h
    cases h
    intro r hr
    rcases List.mem_map.mp hr with ⟨ig, _, rfl⟩
    exact Or.inl ⟨rfl, rfl⟩
  · simp only [evalGroup, hemp, if_false] at h
    cases hei : evaluate_image matcher (preds.filter (fun p => decide (p.image_path = k)))
        ((groupFor ground k).map Prod.snd) with
    | error e => rw [hei] at h; simp [Bind.bind, Except.bind] at h
    | ok result =>
      rw [hei] at h
      simp only [Bind.bind, Except.bind] at h
      by_cases hlen : (result.map (fun r =>
          ({ toImageResultRow := r, image_path := k,
             matched := some (decide (thr < r.iou)) } : EvalRow))).length = 0
      · rw [if_pos hlen] at h; cases h
      · rw [if_neg hlen] at h
        cases h
        intro r hr
        rcases List.mem_map.mp hr with ⟨r0, _, rfl⟩
        exact Or.inr rfl

/-- Under the one-row-per-truth matcher contract, a successful `evalGroup`
emits exactly as many rows as the image group has truth rows. -/
theorem evalGroup_ok_length (matcher : Matcher) (hm : MatcherOneRowPerTruth matcher)
    (thr : ℚ) (preds : List PredRow) (ground : List GroundRow) (k : String)
    (t : List EvalRow × List ℚ × List ℚ)
    (h : evalGroup matcher thr preds ground k = Except.ok t) :
    t.1.length = (groupFor ground k).length := by
  by_cases hemp : (preds.filter (fun p => decide (p.image_path = k))).isEmpty
  · rw [evalGroup_no_predictions matcher thr preds ground k hemp] at h
    cases h
    simp [synthRows]
  · simp only [evalGroup, hemp, if_false] at h
    have hne : preds.filter (fun p => decide (p.image_path = k)) ≠ [] := by
      simpa [List.isEmpty_iff] using hemp
    have hall : ∀ p ∈ preds.filter (fun p => decide (p.image_path = k)), p.image_path = k := by
      intro p hp
      have := List.of_mem_filter hp
      simpa using this
    rw [evaluate_image_eq matcher _ _ k hne hall] at h
    cases hei : exceptMapList
        (attachLabels (preds.filter (fun p => decide (p.image_path = k)))
          ((groupFor ground k).map Prod.snd))
        (matcher ((groupFor ground k).map Prod.snd)
          (preds.filter (fun p => decide (p.image_path = k)))) with
    | error e => rw [hei] at h; simp [Bind.bind, Except.bind] at h
    | ok result =>
      rw [hei] at h
      simp only [Bind.bind, Except.bind] at h
      have hrl : result.length = (groupFor ground k).length := by
        rw [exceptMapList_ok_length _ _ _ hei, hm, List.length_map]
      by_cases hlen : (result.map (fun r =>
          ({ toImageResultRow := r, image_path := k,
             matched := some (decide (thr < r.iou)) } : EvalRow))).length = 0
      · rw [if_pos hlen] at h; cases h
      · rw [if_neg hlen] at h
        cases h
        simpa using hrl

/-- Eliminating a successful `evaluate` call into its per-group pieces. -/
theorem evaluate_ok_elim (matcher : Matcher) (preds : List PredRow)
    (ground : List GroundRow) (thr : ℚ) (avg : Bool) (out : EvalOutput)
    (h : evaluate matcher preds ground thr avg = Except.ok out) :
    ∃ per, exceptMapList (evalGroup matcher thr preds ground)
        (sortedKeys (ground.map (fun g => g.image_path))) = Except.ok per ∧
      per ≠ [] ∧ out = aggregate preds avg per := by
  simp only [evaluate, check_file, Bind.bind, Except.bind] at h
  cases hper : exceptMapList (evalGroup matcher thr preds ground)
      (sortedKeys (ground.map (fun g => g.image_path))) with
  | error e => rw [hper] at h; simp at h
  | ok per =>
    rw [hper] at h
    by_cases hpe : per.isEmpty = true
    · simp [hpe] at h
    · have hne : per ≠ [] := fun hnil => by simp [hnil] at hpe
      simp [hpe] at h
      exact ⟨per, rfl, hne, h.symm⟩

/-- `sortedKeys` has no duplicate keys. -/
theorem sortedKeys_nodup (l : List String) : (sortedKeys l).Nodup := by
  have hperm := List.perm_insertionSort (fun a b => a ≤ b) l.dedup
  exact hperm.symm.nodup (List.nodup_dedup l)

/-- `sortedKeys` keeps exactly the values of the column. -/
theorem mem_sortedKeys (l : List String) (a : String) : a ∈ sortedKeys l ↔ a ∈ l := by
  have hperm := List.perm_insertionSort (fun a b => a ≤ b) l.dedup
  rw [sortedKeys]
  rw [hperm.mem_iff]
  exact List.mem_dedup

/-- Summing an indicator for a value outside the key list changes nothing. -/
theorem sum_map_indicator_not_mem (p : String) (keys : List String) (f : String → ℕ)
    (hp : p ∉ keys) :
    (keys.map (fun k => (if p = k then 1 else 0) + f k)).sum = (keys.map f).sum := by
  induction keys with
  | nil => rfl
  | cons k ks ih =>
    have hpk : p ≠ k := fun hh => hp (hh ▸ List.mem_cons_self k ks)
    have hpks : p ∉ ks := fun hh => hp (List.mem_cons_of_mem k hh)
    simp [List.map_cons, List.sum_cons, if_neg hpk, ih hpks]

/-- Summing an indicator for a value appearing once in a duplicate-free key
list adds exactly one. -/
theorem sum_map_indicator_mem (p : String) (keys : List String) (f : String → ℕ)
    (hnd : keys.Nodup) (hp : p ∈ keys) :
    (keys.map (fun k => (if p = k then 1 else 0) + f k)).sum = 1 + (keys.map f).sum := by
  induction keys with
  | nil => cases hp
  | cons k ks ih =>
    rcases List.mem_cons.mp hp with hpk | hpks
    · subst hpk
      have hpks : p ∉ ks := (List.nodup_cons.mp hnd).1
      simp only [List.map_cons, List.sum_cons, if_pos rfl]
      rw [sum_map_indicator_not_mem p ks f hpks]
      simp [Nat.add_assoc]
    · have hpk : p ≠ k := by
        intro hh
        subst hh
        exact (List.nodup_cons.mp hnd).1 hpks
      simp only [List.map_cons, List.sum_cons, if_neg hpk]
      rw [ih (List.nodup_cons.mp hnd).2 hpks]
      ring

/-- A duplicate-free key list covering every row's path partitions the table:
the group sizes sum to the table size. -/
theorem sum_group_lengths (ground : List GroundRow) (keys : List String)
    (hnd : keys.Nodup) (hcov : ∀ g ∈ ground, g.image_path ∈ keys) :
    (keys.map (fun k =>
      (ground.filter (fun g => decide (g.image_path = k))).length)).sum = ground.length := by
  induction ground with
  | nil => simp
  | cons g gs ih =>
    have hg : g.image_path ∈ keys := hcov g (List.mem_cons_self g gs)
    have hcov2 : ∀ x ∈ gs, x.image_path ∈ keys :=
      fun x hx => hcov x (List.mem_cons_of_mem g hx)
    have hpt : ∀ k ∈ keys,
        ((g :: gs).filter (fun x => decide (x.image_path = k))).length =
          (if g.image_path = k then 1 else 0) +
            (gs.filter (fun x => decide (x.image_path = k))).length := by
      intro k _
      simp only [List.filter_cons]
      by_cases hh : g.image_path = k
      · simp [hh, Nat.add_comm]
      · simp [hh]
    rw [List.map_congr_left hpt, sum_map_indicator_mem _ _ _ hnd hg, ih hcov2]
    simp [Nat.add_comm]

/-- Under the matcher contract, the per-group row counts are the group sizes. -/
theorem per_rows_lengths (matcher : Matcher) (hm : MatcherOneRowPerTruth matcher)
    (thr : ℚ) (preds : List PredRow) (ground : List GroundRow) :
    ∀ (keys : List String) (per : List (List EvalRow × List ℚ × List ℚ)),
      List.Forall₂ (fun k t => evalGroup matcher thr preds ground k = Except.ok t) keys per →
      per.map (fun t => t.1.length) =
        keys.map (fun k => (ground.filter (fun g => decide (g.image_path = k))).length) := by
  intro keys per h
  induction h with
  | nil => rfl
  | cons hkt _ ih =>
    simp only [List.map_cons, ih, List.cons.injEq, and_true]
    rw [evalGroup_ok_length matcher hm _ _ _ _ _ hkt, groupFor_length]

/-- Under the matcher contract, the matched-rows table of a successful
`evaluate` has one row per ground-truth row: its length is the sum of the
per-image group sizes, which is the ground-truth table size. -/
theorem evaluate_ok_results_length (matcher : Matcher) (hm : MatcherOneRowPerTruth matcher)
    (preds : List PredRow) (ground : List GroundRow) (thr : ℚ) (avg : Bool)
    (out : EvalOutput) (h : evaluate matcher preds ground thr avg = Except.ok out) :
    out.results.length =
      ((sortedKeys (ground.map (fun g => g.image_path))).map
        (fun k => (ground.filter (fun g => decide (g.image_path = k))).length)).sum ∧
    out.results.length = ground.length := by
  obtain ⟨per, hper, _, hout⟩ := evaluate_ok_elim matcher preds ground thr avg out h
  have hf := exceptMapList_ok_forall₂ _ _ _ hper
  have hlens := per_rows_lengths matcher hm thr preds ground _ _ hf
  have h1 : out.results.length = (per.map (fun t => t.1.length)).sum := by
    rw [hout]
    simp only [aggregate]
    rw [List.length_flatten, List.map_map]
    rfl
  constructor
  · rw [h1, hlens]
  · rw [h1, hlens]
    apply sum_group_lengths ground _ (sortedKeys_nodup _)
    intro g hg
    exact (mem_sortedKeys _ _).mpr (List.mem_map_of_mem (fun x => x.image_path) hg)

/-- A matched-rows row of the one-image, perfectly-matched example. -/
def rowA : EvalRow :=
  { truth_id := 0, prediction_id := some 0, iou := 1,
    predicted_label := some "T", true_label := "T",
    image_path := "a", matched := some true }

/-- The output of `evaluate exactMatcher [pA] [gA] (2/5) false` (and of the
macro variant, whose means coincide here). -/
def OUTA : EvalOutput :=
  { results := [rowA], box_precision := some 1, box_recall := some 1,
    class_recall := some [{ label := "T", «recall» := 1, precision := 1, size := 1 }],
    overall_precision := 1, overall_recall := 1 }

/-! ### Claims -/

/-- Claim C8: `compute_class_recall` returns null if and only if the input
matched-rows table has no row with `match == true`; the null decision looks
only at the subset of rows with `match == true`. -/
theorem C8_class_recall_null_iff (results : List EvalRow) (predictions : List PredRow) :
    compute_class_recall results predictions = none ↔
      ∀ r ∈ results, r.matched ≠ some true := by
  have hiff : ((results.filter (fun r => decide (r.matched = some true))).isEmpty = true) ↔
      (∀ r ∈ results, r.matched ≠ some true) := by
    rw [List.isEmpty_iff, List.filter_eq_nil_iff]
    simp
  simp only [compute_class_recall]
  by_cases hemp : (results.filter (fun r => decide (r.matched = some true))).isEmpty = true
  · rw [if_pos hemp]
    exact iff_of_true rfl (hiff.mp hemp)
  · rw [if_neg hemp]
    exact iff_of_false (by simp) (fun hall => hemp (hiff.mpr hall))

/-- Claim C5: for every ground-truth image group with zero corresponding
prediction rows, `evaluate` synthesizes exactly one match row per truth row
with null `prediction_id`, IoU 0, null `match` and null `predicted_label`,
appends a per-image recall of 0 and appends no per-image precision for that
image.  (`evalGroup` is the loop body `evaluate` runs for the group with key
`k`; its three components are the rows added to the matched-rows table and the
values appended to `box_recalls` and `box_precisions`.) -/
theorem C5_zero_prediction_group (matcher : Matcher) (thr : ℚ) (preds : List PredRow)
    (ground : List GroundRow) (k : String)
    (hempty : (preds.filter (fun p => decide (p.image_path = k))).isEmpty = true) :
    evalGroup matcher thr preds ground k =
      Except.ok ((groupFor ground k).map (fun ig =>
        { truth_id := ig.1, prediction_id := none, iou := 0,
          predicted_label := none, true_label := ig.2.label,
          image_path := k, matched := none }), [0], []) :=
  evalGroup_no_predictions matcher thr preds ground k hempty

/-- Witness for C5 at a concrete input: image `b` has one truth row and no
predictions. -/
theorem C5_zero_prediction_group_witness :
    ((([pA] : List PredRow).filter (fun p => decide (p.image_path = "b"))).isEmpty = true) ∧
    evalGroup exactMatcher (2/5) [pA] [gA, gB] "b" =
      Except.ok ((groupFor [gA, gB] "b").map (fun ig =>
        { truth_id := ig.1, prediction_id := none, iou := 0,
          predicted_label := none, true_label := ig.2.label,
          image_path := "b", matched := none }), [0], []) :=
  ⟨by decide, C5_zero_prediction_group exactMatcher (2/5) [pA] [gA, gB] "b" (by decide)⟩

/-- Claim C10: on a predictions table with zero rows, `evaluate_image` neither
returns a result nor raises the documented input error: selecting the first
element of the empty distinct-path array fails with an out-of-bounds index
error, so a non-empty predictions table is an undocumented precondition. -/
theorem C10_empty_predictions (matcher : Matcher) (ground : List GroundRow) :
    evaluate_image matcher [] ground = Except.error indexErrorMsg ∧
    ∀ p : String, evaluate_image matcher [] ground ≠ Except.error (inputErrorMsg p) := by
  have h1 : evaluate_image matcher [] ground = Except.error indexErrorMsg := rfl
  refine ⟨h1, ?_⟩
  intro p hcontra
  rw [h1] at hcontra
  injection hcontra with hmsg
  have htrue := inputErrorMsg_mentions_marker p
  rw [← hmsg] at htrue
  have hfalse : containsRun indexErrorMsg.data (String.data "More than one plot") = false := by
    decide
  rw [htrue] at hfalse
  cases hfalse

/-- Claim C4 counterexample: with distinct image paths `zz` and `qq`, the
raised error message interpolates only the first path; the second distinct
path `qq` does not occur anywhere in the message, so the message does not name
the offending set of distinct paths. -/
theorem C4_counterexample :
    evaluate_image exactMatcher [pZ, pQ] [] = Except.error (inputErrorMsg "zz") ∧
    "qq" ∈ plotNames [pZ, pQ] ∧
    containsRun (inputErrorMsg "zz").data (String.data "qq") = false :=
  ⟨rfl, by decide, by decide⟩

/-- Claim C4 (amended): a predictions table with more than one distinct image
path makes `evaluate_image` fail with the input error, whose message names the
FIRST of the distinct paths (the format string interpolates `plot_names[0]`
only, not the whole set). -/
theorem C4_first_path_error (matcher : Matcher) (preds : List PredRow)
    (ground : List GroundRow) (hmany : 1 < (plotNames preds).length) :
    evaluate_image matcher preds ground =
      Except.error (inputErrorMsg (plotNames preds).headI) ∧
    containsRun (inputErrorMsg (plotNames preds).headI).data
      (plotNames preds).headI.data = true := by
  constructor
  · simp only [evaluate_image]
    rw [if_pos hmany]
  · exact inputErrorMsg_mentions_path _

/-- Witness for the amended C4 at a concrete input with two distinct paths. -/
theorem C4_first_path_error_witness :
    1 < (plotNames [pZ, pQ]).length ∧
    (evaluate_image exactMatcher [pZ, pQ] [] =
      Except.error (inputErrorMsg (plotNames [pZ, pQ]).headI) ∧
     containsRun (inputErrorMsg (plotNames [pZ, pQ]).headI).data
       (plotNames [pZ, pQ]).headI.data = true) :=
  ⟨by decide, C4_first_path_error exactMatcher [pZ, pQ] [] (by decide)⟩

/-- Claim C3 counterexample: with a negative caller-supplied `iou_threshold`,
the row synthesized for an image with zero predictions has IoU 0, which
exceeds the threshold, yet its `match` is null rather than true — so
`match == true` iff `IoU > iou_threshold` fails as stated. -/
theorem C3_counterexample :
    ∃ out, evaluate exactMatcher [] [gB] (-1) false = Except.ok out ∧
      ∃ r, r ∈ out.results ∧ (-1 : ℚ) < r.iou ∧ r.matched ≠ some true := by
  refine ⟨{ results := [{ truth_id := 0, prediction_id := none, iou := 0,
                          predicted_label := none, true_label := "T",
                          image_path := "b", matched := none }],
            box_precision := some 0, box_recall := some 0,
            class_recall := none, overall_precision := 0, overall_recall := 0 },
          by with_unfolding_all decide, ?_⟩
  exact ⟨_, List.mem_cons_self _ _, by norm_num, by simp⟩

/-- Claim C3 (amended): provided the caller-supplied `iou_threshold` is
nonnegative, every row of the matched-rows table returned by `evaluate` has
`match = true` exactly when its IoU exceeds the threshold (rows synthesized
for images with zero predictions carry IoU 0 and a null match, which is not
true). -/
theorem C3_match_iff_iou (matcher : Matcher) (preds : List PredRow)
    (ground : List GroundRow) (thr : ℚ) (avg : Bool) (out : EvalOutput)
    (hthr : 0 ≤ thr) (h : evaluate matcher preds ground thr avg = Except.ok out) :
    ∀ r ∈ out.results, (r.matched = some true ↔ thr < r.iou) := by
  obtain ⟨per, hper, _, hout⟩ := evaluate_ok_elim matcher preds ground thr avg out h
  have hf := exceptMapList_ok_forall₂ _ _ _ hper
  intro r hr
  rw [hout] at hr
  simp only [aggregate] at hr
  rw [List.mem_flatten] at hr
  obtain ⟨rows, hrows, hrrows⟩ := hr
  rw [List.mem_map] at hrows
  obtain ⟨t, ht, rfl⟩ := hrows
  obtain ⟨k, _, hok⟩ := forall₂_mem_right hf ht
  rcases evalGroup_ok_rows matcher thr preds ground k t hok r hrrows with ⟨hm0, hiou⟩ | hmt
  · rw [hm0, hiou]
    constructor
    · intro hh; cases hh
    · intro hh; exact absurd hthr (not_le.mpr hh)
  · rw [hmt]
    constructor
    · intro hh
      have hdec := Option.some.inj hh
      exact of_decide_eq_true hdec
    · intro hh
      simp [decide_eq_true hh]

/-- Witness for the amended C3 on the one-image, perfectly-matched example. -/
theorem C3_match_iff_iou_witness :
    (0 : ℚ) ≤ 2/5 ∧
    (evaluate exactMatcher [pA] [gA] (2/5) false = Except.ok OUTA ∧
     ∀ r ∈ OUTA.results, (r.matched = some true ↔ (2/5 : ℚ) < r.iou)) :=
  ⟨by norm_num,
   by with_unfolding_all decide,
   C3_match_iff_iou exactMatcher [pA] [gA] (2/5) false OUTA (by norm_num)
     (by with_unfolding_all decide)⟩

/-- Claim C2: the overall label-aware metrics are computed only over rows with
`IoU > 0.4` — a fixed cutoff independent of the caller's `iou_threshold` —
counting a row as a true positive iff its predicted label equals its true
label, with `overall_precision = TP/(TP+FP)` where `FP` is the total number of
prediction rows minus `TP`, and `overall_recall = TP/(TP+FN)` where `FN` is
the total number of ground-truth rows minus `TP`; each defaults to 0 when its
denominator is 0. -/
theorem C2_overall_metrics (matcher : Matcher) (hm : MatcherOneRowPerTruth matcher)
    (preds : List PredRow) (ground : List GroundRow) (thr : ℚ) (avg : Bool)
    (out : EvalOutput) (h : evaluate matcher preds ground thr avg = Except.ok out) :
    let tp : ℤ := (((out.results.filter (fun r => decide ((2/5 : ℚ) < r.iou))).filter
        (fun r => decide (r.predicted_label = some r.true_label))).length : ℤ)
    let fp : ℤ := (preds.length : ℤ) - tp
    let fn : ℤ := (ground.length : ℤ) - tp
    out.overall_precision = (if tp + fp = 0 then 0 else (tp : ℚ) / ((tp : ℚ) + (fp : ℚ))) ∧
    out.overall_recall = (if tp + fn = 0 then 0 else (tp : ℚ) / ((tp : ℚ) + (fn : ℚ))) := by
  obtain ⟨per, hper, hne, hout⟩ := evaluate_ok_elim matcher preds ground thr avg out h
  have hlen := (evaluate_ok_results_length matcher hm preds ground thr avg out h).2
  have hop : out.overall_precision = overallPrecision preds out.results := by
    rw [hout]; rfl
  have hor : out.overall_recall = overallRecall out.results := by
    rw [hout]; rfl
  intro tp fp fn
  constructor
  · rw [hop]
    rfl
  · rw [hor]
    simp only [overallRecall, truePositive04]
    rw [hlen]

/-- Witness for C2 on the one-image, perfectly-matched example. -/
theorem C2_overall_metrics_witness :
    MatcherOneRowPerTruth exactMatcher ∧
    (evaluate exactMatcher [pA] [gA] (2/5) false = Except.ok OUTA ∧
     (let tp : ℤ := (((OUTA.results.filter (fun r => decide ((2/5 : ℚ) < r.iou))).filter
          (fun r => decide (r.predicted_label = some r.true_label))).length : ℤ)
      let fp : ℤ := ((([pA] : List PredRow).length : ℤ) - tp)
      let fn : ℤ := ((([gA] : List GroundRow).length : ℤ) - tp)
      OUTA.overall_precision = (if tp + fp = 0 then 0 else (tp : ℚ) / ((tp : ℚ) + (fp : ℚ))) ∧
      OUTA.overall_recall = (if tp + fn = 0 then 0 else (tp : ℚ) / ((tp : ℚ) + (fn : ℚ))))) :=
  ⟨exactMatcher_one_row,
   by with_unfolding_all decide,
   C2_overall_metrics exactMatcher exactMatcher_one_row [pA] [gA] (2/5) false OUTA
     (by with_unfolding_all decide)⟩

/-- The row `evaluate` synthesizes for image `b` (no predictions) when the
ground truth is `[gA, gB]`. -/
def rowB : EvalRow :=
  { truth_id := 1, prediction_id := none, iou := 0,
    predicted_label := none, true_label := "T", image_path := "b", matched := none }

/-- The output of `evaluate exactMatcher [pA] [gA, gB] (2/5) false`: image `a`
is perfectly matched, image `b` has no predictions. -/
def OUTmixed : EvalOutput :=
  { results := [rowA, rowB],
    box_precision := some 0, box_recall := some 0,
    class_recall := some [{ label := "T", «recall» := 1/2, precision := 1, size := 1 }],
    overall_precision := 1, overall_recall := 1/2 }

/-- The output of `evaluate exactMatcher [pA] [gA, gB] (2/5) true` (macro mode). -/
def OUTmacro : EvalOutput :=
  { results := [rowA, rowB],
    box_precision := some 1, box_recall := some (1/2),
    class_recall := some [{ label := "T", «recall» := 1/2, precision := 1, size := 1 }],
    overall_precision := 1, overall_recall := 1/2 }

/-- Claim C1 counterexample: predictions `[pA]`, ground truth `[gA, gB]`:
image `a` has one matched prediction, image `b` has none.  The claim predicts
micro `box_precision = 1/1` and `box_recall = 1/2`, but the null `match`
values of image `b` make `sum(results["match"])` raise `TypeError`, and the
bare `except:` turns both metrics into 0. -/
theorem C1_counterexample :
    ∃ out, evaluate exactMatcher [pA] [gA, gB] (2/5) false = Except.ok out ∧
      (out.results.filter (fun r => decide (r.matched = some true))).length = 1 ∧
      out.box_precision ≠ some ((1 : ℚ) / (([pA] : List PredRow).length : ℚ)) ∧
      out.box_recall ≠ some ((1 : ℚ) / (([gA, gB] : List GroundRow).length : ℚ)) := by
  refine ⟨OUTmixed, by with_unfolding_all decide, by with_unfolding_all decide,
    by with_unfolding_all decide, by with_unfolding_all decide⟩

/-- Claim C1 (amended): in micro mode, when every row of the matched-rows
table carries a non-null `match` (every image group had at least one
prediction row), `box_precision` is the total matched count over the total
number of prediction rows (0 when there are no predictions) and `box_recall`
is the total matched count over the total number of ground-truth rows; but as
soon as some image has zero predictions (a null `match` row exists), the bare
exception handler makes both micro metrics 0. -/
theorem C1_micro_box_metrics (matcher : Matcher) (hm : MatcherOneRowPerTruth matcher)
    (preds : List PredRow) (ground : List GroundRow) (thr : ℚ) (out : EvalOutput)
    (h : evaluate matcher preds ground thr false = Except.ok out) :
    ((∃ r ∈ out.results, r.matched = none) →
      out.box_precision = some 0 ∧ out.box_recall = some 0) ∧
    ((∀ r ∈ out.results, r.matched ≠ none) →
      out.box_precision = some (if preds.length = 0 then 0
        else (((out.results.filter (fun r => decide (r.matched = some true))).length : ℚ) /
          (preds.length : ℚ))) ∧
      out.box_recall = some
        (((out.results.filter (fun r => decide (r.matched = some true))).length : ℚ) /
          (ground.length : ℚ))) := by
  obtain ⟨per, hper, hne, hout⟩ := evaluate_ok_elim matcher preds ground thr false out h
  have hlen := (evaluate_ok_results_length matcher hm preds ground thr false out h).2
  have hbp : out.box_precision = some (microPrecision preds out.results) := by
    rw [hout]; rfl
  have hbr : out.box_recall = some (microRecall out.results) := by
    rw [hout]; rfl
  constructor
  · intro hex
    have hany : out.results.any (fun r => decide (r.matched = none)) = true := by
      rcases hex with ⟨r, hr, hrm⟩
      exact List.any_eq_true.mpr ⟨r, hr, by simp [hrm]⟩
    have hsm : sumMatch out.results = none := by
      simp only [sumMatch, hany, if_true]
    exact ⟨by rw [hbp]; simp [microPrecision, hsm],
           by rw [hbr]; simp [microRecall, hsm]⟩
  · intro hall
    have hany : out.results.any (fun r => decide (r.matched = none)) = false := by
      rw [List.any_eq_false]
      intro r hr
      simp [hall r hr]
    have hsm : sumMatch out.results =
        some ((out.results.filter (fun r => decide (r.matched = some true))).length) := by
      simp only [sumMatch, hany, Bool.false_eq_true, if_false]
    have hg0 : ground ≠ [] := by
      intro hgnil
      apply hne
      have hl := (exceptMapList_ok_forall₂ _ _ _ hper).length_eq
      rw [hgnil] at hl
      simp only [List.map_nil, sortedKeys, List.dedup_nil, List.insertionSort,
        List.length_nil] at hl
      exact List.length_eq_zero.mp hl.symm
    have hrl0 : out.results.length ≠ 0 := by
      rw [hlen]
      simpa [List.length_eq_zero] using hg0
    constructor
    · rw [hbp]
      simp only [microPrecision, hsm]
    · have hgl0 : ground.length ≠ 0 := by simpa [List.length_eq_zero] using hg0
      rw [hbr]
      simp only [microRecall, hsm, hlen, if_neg hgl0]

/-- Witness for the amended C1 on an input where every image has predictions. -/
theorem C1_micro_box_metrics_witness :
    MatcherOneRowPerTruth exactMatcher ∧
    (evaluate exactMatcher [pA] [gA] (2/5) false = Except.ok OUTA ∧
     (((∃ r ∈ OUTA.results, r.matched = none) →
        OUTA.box_precision = some 0 ∧ OUTA.box_recall = some 0) ∧
      ((∀ r ∈ OUTA.results, r.matched ≠ none) →
        OUTA.box_precision = some (if ([pA] : List PredRow).length = 0 then 0
          else (((OUTA.results.filter (fun r => decide (r.matched = some true))).length : ℚ) /
            (([pA] : List PredRow).length : ℚ))) ∧
        OUTA.box_recall = some
          (((OUTA.results.filter (fun r => decide (r.matched = some true))).length : ℚ) /
            (([gA] : List GroundRow).length : ℚ))))) :=
  ⟨exactMatcher_one_row, by with_unfolding_all decide,
   C1_micro_box_metrics exactMatcher exactMatcher_one_row [pA] [gA] (2/5) OUTA
     (by with_unfolding_all decide)⟩

/-- Claim C9: whenever `evaluate` succeeds (with a matcher meeting the
one-row-per-truth-rectangle contract), the concatenated matched-rows table
has total row count equal to the sum over all image groups of that group's
ground-truth row count — which is the ground-truth table's size, so every
truth row appears in exactly one row of the result. -/
theorem C9_row_count (matcher : Matcher) (hm : MatcherOneRowPerTruth matcher)
    (preds : List PredRow) (ground : List GroundRow) (thr : ℚ) (avg : Bool)
    (out : EvalOutput) (h : evaluate matcher preds ground thr avg = Except.ok out) :
    out.results.length =
      ((sortedKeys (ground.map (fun g => g.image_path))).map
        (fun k => (ground.filter (fun g => decide (g.image_path = k))).length)).sum ∧
    out.results.length = ground.length :=
  evaluate_ok_results_length matcher hm preds ground thr avg out h

/-- Witness for C9 on the two-image example. -/
theorem C9_row_count_witness :
    MatcherOneRowPerTruth exactMatcher ∧
    (evaluate exactMatcher [pA] [gA, gB] (2/5) false = Except.ok OUTmixed ∧
     (OUTmixed.results.length =
        ((sortedKeys (([gA, gB] : List GroundRow).map (fun g => g.image_path))).map
          (fun k => (([gA, gB] : List GroundRow).filter
            (fun g => decide (g.image_path = k))).length)).sum ∧
      OUTmixed.results.length = ([gA, gB] : List GroundRow).length)) :=
  ⟨exactMatcher_one_row, by with_unfolding_all decide,
   C9_row_count exactMatcher exactMatcher_one_row [pA] [gA, gB] (2/5) false OUTmixed
     (by with_unfolding_all decide)⟩

/-- Claim C6: in macro mode (`average=true`), `box_recall` is the arithmetic
mean of the per-image recall values — an image with zero predictions
contributes a recall of 0 — and `box_precision` is the arithmetic mean of the
per-image precision values with zero-prediction images excluded (they append
no precision entry; if the precision list is empty the mean is NaN, modelled
as `none`). -/
theorem C6_macro_box_metrics (matcher : Matcher) (preds : List PredRow)
    (ground : List GroundRow) (thr : ℚ) (out : EvalOutput)
    (h : evaluate matcher preds ground thr true = Except.ok out) :
    ∃ per, exceptMapList (evalGroup matcher thr preds ground)
        (sortedKeys (ground.map (fun g => g.image_path))) = Except.ok per ∧
      out.box_recall = some (((per.map (fun t => t.2.1)).flatten).sum /
        (((per.map (fun t => t.2.1)).flatten).length : ℚ)) ∧
      out.box_precision = listMean ((per.map (fun t => t.2.2)).flatten) ∧
      ((per.map (fun t => t.2.2)).flatten ≠ [] →
        out.box_precision = some (((per.map (fun t => t.2.2)).flatten).sum /
          (((per.map (fun t => t.2.2)).flatten).length : ℚ))) ∧
      List.Forall₂ (fun k t =>
          (preds.filter (fun p => decide (p.image_path = k))).isEmpty = true →
            t = (synthRows ground k, [0], []))
        (sortedKeys (ground.map (fun g => g.image_path))) per := by
  obtain ⟨per, hper, hne, hout⟩ := evaluate_ok_elim matcher preds ground thr true out h
  have hf := exceptMapList_ok_forall₂ _ _ _ hper
  have hbr0 : out.box_recall = listMean ((per.map (fun t => t.2.1)).flatten) := by
    rw [hout]; rfl
  have hbp0 : out.box_precision = listMean ((per.map (fun t => t.2.2)).flatten) := by
    rw [hout]; rfl
  have hrne : (per.map (fun t => t.2.1)).flatten ≠ [] := by
    cases per with
    | nil => exact absurd rfl hne
    | cons t rest =>
      obtain ⟨k, _, hok⟩ := forall₂_mem_right hf (List.mem_cons_self t rest)
      obtain ⟨q, hq⟩ := evalGroup_ok_recall_singleton _ _ _ _ _ _ hok
      simp [hq]
  refine ⟨per, hper, ?_, hbp0, ?_, ?_⟩
  · rw [hbr0, listMean, if_neg (by simpa [List.isEmpty_iff] using hrne)]
  · intro hpne
    rw [hbp0, listMean, if_neg (by simpa [List.isEmpty_iff] using hpne)]
  · refine hf.imp ?_
    intro k t hok hempty
    rw [evalGroup_no_predictions matcher thr preds ground k hempty] at hok
    exact (Except.ok.inj hok).symm

/-- Witness for C6 on the two-image macro example (image `a` precision/recall
1, image `b` recall 0 with no precision entry: recall mean 1/2, precision
mean 1). -/
theorem C6_macro_box_metrics_witness :
    evaluate exactMatcher [pA] [gA, gB] (2/5) true = Except.ok OUTmacro ∧
    (∃ per, exceptMapList (evalGroup exactMatcher (2/5) [pA] [gA, gB])
        (sortedKeys (([gA, gB] : List GroundRow).map (fun g => g.image_path))) =
          Except.ok per ∧
      OUTmacro.box_recall = some (((per.map (fun t => t.2.1)).flatten).sum /
        (((per.map (fun t => t.2.1)).flatten).length : ℚ)) ∧
      OUTmacro.box_precision = listMean ((per.map (fun t => t.2.2)).flatten) ∧
      ((per.map (fun t => t.2.2)).flatten ≠ [] →
        OUTmacro.box_precision = some (((per.map (fun t => t.2.2)).flatten).sum /
          (((per.map (fun t => t.2.2)).flatten).length : ℚ))) ∧
      List.Forall₂ (fun k t =>
          (([pA] : List PredRow).filter (fun p => decide (p.image_path = k))).isEmpty = true →
            t = (synthRows [gA, gB] k, [0], []))
        (sortedKeys (([gA, gB] : List GroundRow).map (fun g => g.image_path))) per) :=
  ⟨by with_unfolding_all decide,
   C6_macro_box_metrics exactMatcher [pA] [gA, gB] (2/5) OUTmacro
     (by with_unfolding_all decide)⟩

/-- Claim C7: on a matched-rows table with at least one `match == true` row,
`compute_class_recall` returns a frame containing, for each distinct
`true_label` `c` of the matched subset, recall = (count of matched rows with
`predicted_label == true_label == c`) / (count of rows with `true_label == c`
across ALL rows, matched or not), precision = the same numerator / (count of
prediction rows labelled `c`), 0 when that count is 0, and support (`size`) =
count of matched rows with `true_label == c`. -/
theorem C7_class_metrics (results : List EvalRow) (predictions : List PredRow)
    (hne : ∃ r ∈ results, r.matched = some true) :
    ∃ L, compute_class_recall results predictions = some L ∧
      ∀ c ∈ (results.filter (fun r => decide (r.matched = some true))).map
          (fun r => r.true_label),
        ({ label := c,
           «recall» := ((((results.filter (fun r => decide (r.matched = some true))).filter
               (fun r => decide (r.true_label = c ∧ r.predicted_label = some c))).length : ℚ) /
             ((results.filter (fun r => decide (r.true_label = c))).length : ℚ)),
           precision := (if (predictions.filter (fun p => decide (p.label = c))).length = 0
             then 0
             else ((((results.filter (fun r => decide (r.matched = some true))).filter
                 (fun r => decide (r.true_label = c ∧ r.predicted_label = some c))).length : ℚ) /
               ((predictions.filter (fun p => decide (p.label = c))).length : ℚ))),
           size := ((results.filter (fun r => decide (r.matched = some true))).filter
               (fun r => decide (r.true_label = c))).length } : ClassMetrics) ∈ L := by
  have hdfne : ¬((results.filter (fun r => decide (r.matched = some true))).isEmpty = true) := by
    rcases hne with ⟨r, hr, hrm⟩
    intro hemp
    rw [List.isEmpty_iff] at hemp
    have hmem : r ∈ results.filter (fun r => decide (r.matched = some true)) :=
      List.mem_filter.mpr ⟨hr, by simp [hrm]⟩
    rw [hemp] at hmem
    cases hmem
  have hcc : compute_class_recall results predictions =
      some ((sortedKeys ((results.filter (fun r => decide (r.matched = some true))).map
          (fun r => r.true_label))).map (fun name =>
        { label := name,
          «recall» := ((((results.filter (fun r => decide (r.matched = some true))).filter
              (fun r => decide (r.true_label = name))).filter
              (fun r => decide (r.predicted_label = some r.true_label))).length : ℚ) /
            ((results.filter (fun r => decide (r.true_label = name))).length : ℚ),
          precision := (if (predictions.filter (fun p => decide (p.label = name))).length = 0
            then 0
            else ((((results.filter (fun r => decide (r.matched = some true))).filter
                (fun r => decide (r.true_label = name))).filter
                (fun r => decide (r.predicted_label = some r.true_label))).length : ℚ) /
              ((predictions.filter (fun p => decide (p.label = name))).length : ℚ)),
          size := ((results.filter (fun r => decide (r.matched = some true))).filter
              (fun r => decide (r.true_label = name))).length })) := by
    simp only [compute_class_recall]
    rw [if_neg hdfne]
  refine ⟨_, hcc, ?_⟩
  intro c hc
  have hcs : c ∈ sortedKeys ((results.filter
      (fun r => decide (r.matched = some true))).map (fun r => r.true_label)) :=
    (mem_sortedKeys _ _).mpr hc
  have hfe : (((results.filter (fun r => decide (r.matched = some true))).filter
        (fun r => decide (r.true_label = c))).filter
          (fun r => decide (r.predicted_label = some r.true_label))) =
      ((results.filter (fun r => decide (r.matched = some true))).filter
        (fun r => decide (r.true_label = c ∧ r.predicted_label = some c))) := by
    rw [List.filter_filter]
    apply List.filter_congr
    intro r _
    by_cases hc2 : r.true_label = c
    · subst hc2
      simp
    · simp [hc2]
  refine List.mem_map.mpr ⟨c, hcs, ?_⟩
  simp only [ClassMetrics.mk.injEq]
  refine ⟨trivial, ?_, ?_, trivial⟩
  · rw [← hfe]
  · rw [← hfe]

/-- Witness for C7 on a two-row table whose matched subset is one correctly
labelled row. -/
theorem C7_class_metrics_witness :
    (∃ r ∈ ([rowA, rowB] : List EvalRow), r.matched = some true) ∧
    (∃ L, compute_class_recall [rowA, rowB] [pA] = some L ∧
      ∀ c ∈ (([rowA, rowB] : List EvalRow).filter
          (fun r => decide (r.matched = some true))).map (fun r => r.true_label),
        ({ label := c,
           «recall» := (((([rowA, rowB] : List EvalRow).filter
               (fun r => decide (r.matched = some true))).filter
               (fun r => decide (r.true_label = c ∧ r.predicted_label = some c))).length : ℚ) /
             ((([rowA, rowB] : List EvalRow).filter
               (fun r => decide (r.true_label = c))).length : ℚ),
           precision := (if (([pA] : List PredRow).filter
               (fun p => decide (p.label = c))).length = 0
             then 0
             else (((([rowA, rowB] : List EvalRow).filter
                 (fun r => decide (r.matched = some true))).filter
                 (fun r => decide (r.true_label = c ∧ r.predicted_label = some c))).length : ℚ) /
               ((([pA] : List PredRow).filter (fun p => decide (p.label = c))).length : ℚ)),
           size := ((([rowA, rowB] : List EvalRow).filter
               (fun r => decide (r.matched = some true))).filter
               (fun r => decide (r.true_label = c))).length } : ClassMetrics) ∈ L) :=
  ⟨⟨rowA, List.mem_cons_self _ _, rfl⟩,
   C7_class_metrics [rowA, rowB] [pA] ⟨rowA, List.mem_cons_self _ _, rfl⟩⟩

end DeepForestEval
